import Mathlib

/-!
Verification development for the PyQt6-stubs fix engine
(`fixes/annotation_fixer.py`, `fixes/annotation_fixes.py`,
`fixes/mypy_visitor.py`, `fixes/fix_creator.py`, `fixes/custom_fixer.py`).

The Python code walks libcst syntax trees of stub files.  We shallowly embed
the parts of the libcst node model that the fix engine inspects, and translate
each visitor method into a Lean function over that model.  Python lists used
as stacks are modelled as Lean lists with `append` at the end (so Python
`xs[-1]` is `getLast?`, `xs[0]` is `head?`, `xs.pop()` is `dropLast`, and
`list.remove(x)` is `List.erase` which, like Python, removes the first
element equal to `x`).  libcst nodes are frozen dataclasses, so Python `==`
on them is deep structural equality; we model nodes as plain structures with
derived decidable equality.  Code paths that can raise are modelled with
`Except String`.
-/

set_option autoImplicit false

deriving instance DecidableEq for Except

namespace PyQt6Stubs

/-! ## The libcst node model (the fields the fix engine reads) -/

/-- A libcst `Param`: a parameter name together with the rendered source text
of its annotation (the string `AnnotationFixer._code` produces), or `none`
when the parameter is unannotated. -/
structure Param where
  name : String
  annot : Option String
  deriving DecidableEq, Repr

/-- The fields of a libcst `Parameters` node that the fix engine reads.
`children` of a `Parameters` node enumerates the positional params, the
star argument, the keyword-only params and the double-star argument. -/
structure Parameters where
  params : List Param
  star_arg : Option Param
  kwonly_params : List Param
  star_kwarg : Option Param
  deriving DecidableEq, Repr

/-- Model of `len(parameters.children)` as used in `AnnotationFixer._get_fix`. -/
def Parameters.childCount (ps : Parameters) : Nat :=
  ps.params.length + ps.star_arg.toList.length + ps.kwonly_params.length
    + ps.star_kwarg.toList.length

/-- One child of the expression of a libcst `Decorator`
(`decorator.decorator.children`): a `Name` node with a value, or the dot of
an `Attribute`, or anything else. -/
inductive DecChild where
  | nameNode (value : String)
  | dot
  | otherNode (tag : Nat)
  deriving DecidableEq, Repr

/-- A libcst `Decorator`: the children of its expression, plus the trailing
whitespace comment (used by comment fixes). -/
structure Decorator where
  children : List DecChild
  trailing_comment : Option String
  deriving DecidableEq, Repr

/-- A libcst `FunctionDef` restricted to the fields the fix engine reads.
`body_tag` stands for the (never inspected) body, so that two functions with
identical signatures but different bodies are structurally distinct, exactly
as the frozen-dataclass equality of libcst distinguishes them. -/
structure FunctionDef where
  name : String
  params : Parameters
  decorators : List Decorator
  returns : Option String
  trailing_comment : Option String
  body_tag : Nat
  deriving DecidableEq, Repr

/-- A libcst `ClassDef` restricted to its name. -/
structure ClassDef where
  name : String
  deriving DecidableEq, Repr

/-- The syntax-tree nodes a generated fix can target. -/
inductive Node where
  | fn (f : FunctionDef)
  | dec (d : Decorator)
  | cls (c : ClassDef)
  deriving DecidableEq, Repr

/-! ## The fix data model (`fixes/annotation_fixes.py`) -/

/-- Model of `FixParameter`: name, desired annotation text, recorded current
annotation text. -/
structure FixParameter where
  name : String
  annot : String
  current_annot : Option String
  deriving DecidableEq, Repr

/-- Model of `AnnotationFix`: a hand-authored rule for one method of one class. -/
structure AnnotationFix where
  module_name : String
  class_name : String
  method_name : String
  params : List FixParameter
  return_value : Option String := none
  custom_type : Option String := none
  static : Bool := false
  deriving DecidableEq, Repr

/-- Model of `AddAnnotationFix`: statements appended after the last method of a
class. -/
structure AddAnnotationFix where
  module_name : String
  class_name : String
  annots : List String
  deriving DecidableEq, Repr

/-- The `AnnotationFixer._fixes` pool holds both rule kinds. -/
inductive ModFix where
  | anno (fix : AnnotationFix)
  | addAnno (fix : AddAnnotationFix)
  deriving DecidableEq, Repr

/-- The generated (mypy-derived) fixes that live in
`AnnotationFixer._generated_fixes`. -/
inductive GenFix where
  | commentFix (node : Node) (comment : String)
  | removeFix (node : Node)
  | removeOverloadDecoratorFix (node : Decorator)
  deriving DecidableEq, Repr

/-- Model of `AddImportFix`: names to append to the `from PyQt6 import ...`
statement. -/
structure AddImportFix where
  missing_imports : List String
  deriving DecidableEq, Repr

/-- Python `fix.node == node` for a generated fix (deep equality of frozen
dataclasses). -/
def GenFix.nodeMatches (g : GenFix) (n : Node) : Bool :=
  match g with
  | .commentFix m _ => m = n
  | .removeFix m => m = n
  | .removeOverloadDecoratorFix d => n = Node.dec d

/-! ## AnnotationFixer state -/

/-- The mutable attributes of `AnnotationFixer` used by the class/function
rewriting path.  `last_class_method` models the `Dict[str, FunctionDef]`
passed to the constructor. -/
structure FixerState where
  last_class : List ClassDef
  last_function : List FunctionDef
  fixes : List ModFix
  generated_fixes : List GenFix
  last_class_method : List (String × FunctionDef)
  class_comment_fix : Option GenFix
  deriving DecidableEq, Repr

/-- Property `AnnotationFixer.class_name`. -/
def FixerState.className (s : FixerState) : Option String :=
  (s.last_class.getLast?).map ClassDef.name

/-- Property `AnnotationFixer.function_name`. -/
def FixerState.functionName (s : FixerState) : Option String :=
  (s.last_function.getLast?).map FunctionDef.name

/-! ## The match engine (`_check_parameters` and `_get_fix`) -/

/-- Python `s.startswith(pre)`, computed on the character lists (so that the
kernel can evaluate it). -/
def pyStartsWith (s pre : String) : Bool :=
  pre.data.isPrefixOf s.data

/-- Quote normalization of `_check_parameters`: every single-quote
character (code point 39) in the rendered annotation text is replaced by a
double quote (code point 34).  The Python pattern is a single character, so
`str.replace` coincides with a character map. -/
def normQuotes (s : String) : String :=
  ⟨s.data.map fun c => if c = Char.ofNat 39 then Char.ofNat 34 else c⟩

/-- Does the actual parameter's annotation text match the recorded current
annotation of the fix parameter (`same_annotation` in
`_check_parameters`)?  An unannotated actual parameter matches exactly a
recorded `None`; Python `str == None` is `False`. -/
def annotMatches (p : Param) (fp : FixParameter) : Bool :=
  match p.annot with
  | some code => fp.current_annot = some (normQuotes code)
  | none => fp.current_annot = none

/-- Model of `AnnotationFixer._check_parameters`: every actual positional parameter
other than `self` must be matched by some non-star fix parameter with the
same name and the same current annotation; Python's `for ... else` returns
`False` as soon as one actual parameter has no matching fix parameter. -/
def check_parameters (ps : Parameters) (fix : AnnotationFix) : Bool :=
  ps.params.all fun p =>
    if p.name = "self" then true
    else fix.params.any fun fp =>
      if pyStartsWith fp.name "*" then false
      else fp.name = p.name && annotMatches p fp

/-- The loop body of `AnnotationFixer._get_fix`, abstracted over the current
class name, function name, and the `Parameters` of the function on top of
the visit stack (`self._last_function[-1].params`).  Mirrors the source:
a name-matching rule with the wrong arity aborts the whole search
(`return None`), a rule failing `_check_parameters` is skipped
(`continue`), an unmatched star argument aborts (`return None`). -/
def get_fix_aux (cls fn : Option String) (ps : Parameters) :
    List ModFix → Option AnnotationFix
  | [] => none
  | .addAnno _ :: rest => get_fix_aux cls fn ps rest
  | .anno fix :: rest =>
    if some fix.class_name = cls ∧ some fix.method_name = fn then
      let child_count := ps.childCount
      if (fix.static ∧ (child_count : Int) ≠ fix.params.length)
          ∨ (¬fix.static ∧ (child_count : Int) - 1 ≠ fix.params.length) then
        none
      else if ¬check_parameters ps fix then
        get_fix_aux cls fn ps rest
      else
        match ps.star_arg with
        | some sp =>
          if ¬fix.params.any (fun fp => fp.name = "*" ++ sp.name) then none
          else some fix
        | none => some fix
    else get_fix_aux cls fn ps rest

/-- Model of `AnnotationFixer._get_fix` on the fixer state; `none` when the function
stack is empty (the method is only called from `leave_FunctionDef`, where a
function is always on the stack). -/
def FixerState.get_fix (s : FixerState) : Option AnnotationFix :=
  match s.last_function.getLast? with
  | some f => get_fix_aux s.className s.functionName f.params s.fixes
  | none => none

/-- Model of `AnnotationFixer._get_mypy_fix`: the first generated fix whose node
equals the given node. -/
def get_mypy_fix (pool : List GenFix) (n : Node) : Option GenFix :=
  pool.find? (fun g => g.nodeMatches n)

/-! ## The rewriter (`leave_FunctionDef`, `leave_Decorator` and friends) -/

/-- Model of `AnnotationFixer._fix_annotation`: replace the parameter's annotation by
the parsed desired annotation of the fix parameter. -/
def fix_annot (p : Param) (fp : FixParameter) : Param :=
  { p with annot := some fp.annot }

/-- The parameter-editing loop of the rule branch of `leave_FunctionDef`:
for every fix parameter, rewrite each same-named positional parameter other
than `self`, and for a star fix parameter rewrite the star argument
(`cast(Param, star_arg)` crashes with an `AttributeError` when the function
has no star argument). -/
def apply_fix_params (fix : AnnotationFix) (node : FunctionDef) :
    Except String FunctionDef :=
  fix.params.foldlM
    (fun nd fp => do
      let newPositional := nd.params.params.map fun p =>
        if p.name ≠ "self" ∧ p.name = fp.name then fix_annot p fp else p
      let nd := { nd with params := { nd.params with params := newPositional } }
      if pyStartsWith fp.name "*" then
        match nd.params.star_arg with
        | some sp =>
          pure { nd with
                  params := { nd.params with star_arg := some (fix_annot sp fp) } }
        | none => throw "AttributeError: star_arg is None"
      else
        pure nd)
    node

/-- Model of `AnnotationFixer._apply_comment_fix` on a `FunctionDef`: append the
comment to the trailing whitespace and remove the fix from the generated
pool. -/
def apply_comment_fix_fn (fix : GenFix) (comment : String) (node : FunctionDef)
    (s : FixerState) : FunctionDef × FixerState :=
  ({ node with trailing_comment := some comment },
   { s with generated_fixes := s.generated_fixes.erase fix })

/-- What `leave_FunctionDef` returns to libcst: the (possibly updated) node,
`RemovalSentinel.REMOVE` (for a `RemoveFix`), or a `FlattenSentinel` of the
node followed by statements parsed from an `AddAnnotationFix`. -/
inductive LeaveFnResult where
  | node (f : FunctionDef)
  | removed
  | flattened (f : FunctionDef) (stmts : List String)
  deriving DecidableEq, Repr

/-- The `AddAnnotationFix` scan at the bottom of `leave_FunctionDef`: the
first `AddAnnotationFix` of the pool whose class name matches is consumed
and its statements are flattened after the node. -/
def find_add_anno (cls : Option String) : List ModFix → Option AddAnnotationFix
  | [] => none
  | .anno _ :: rest => find_add_anno cls rest
  | .addAnno fix :: rest =>
    if cls = some fix.class_name then some fix else find_add_anno cls rest

/-- Pop the function stack (`self._last_function.pop()`). -/
def popFn (s : FixerState) : FixerState :=
  { s with last_function := s.last_function.dropLast }

/-- The return-type override of the rule branch of `leave_FunctionDef`. -/
def apply_return_value (fix : AnnotationFix) (node : FunctionDef) : FunctionDef :=
  match fix.return_value with
  | some rv => { node with returns := some rv }
  | none => node

/-- Model of `AnnotationFixer.leave_FunctionDef`.  Branches, in source order:
module-level functions are returned unchanged; a matching rule is applied
and consumed; otherwise a generated fix targeting the original node is
applied and consumed (a `RemoveOverloadDecoratorFix` reaching this branch
raises `ValueError`); otherwise, when the function is the recorded last
method of its class, a matching `AddAnnotationFix` is applied and consumed.
The function stack is popped on every path.  `self._last_class_method[...]`
raises `KeyError` when the class has no recorded last method. -/
def leave_FunctionDef (orig upd : FunctionDef) (s : FixerState) :
    Except String (LeaveFnResult × FixerState) :=
  match s.className with
  | none => .ok (.node upd, popFn s)
  | some clsName =>
    match s.get_fix with
    | some function_fix =>
      match apply_fix_params function_fix upd with
      | .error e => .error e
      | .ok upd1 =>
        .ok (.node (apply_return_value function_fix upd1),
          popFn { s with fixes := s.fixes.erase (.anno function_fix) })
    | none =>
      match get_mypy_fix s.generated_fixes (.fn orig) with
      | some mypy_fix =>
        -- `assert not function_fix` of the source is vacuous here: this
        -- branch is only reached when `_get_fix` returned `None`.
        match mypy_fix with
        | .commentFix _ comment =>
          let (upd2, s2) := apply_comment_fix_fn mypy_fix comment upd s
          .ok (.node upd2, popFn s2)
        | .removeFix n =>
          if n = Node.fn orig then
            .ok (.removed,
              popFn { s with generated_fixes := s.generated_fixes.erase mypy_fix })
          else
            .error "AssertionError: original_node == mypy_fix.node"
        | .removeOverloadDecoratorFix _ =>
          .error "ValueError: Got an unknown fix type"
      | none =>
        match (s.last_class_method.lookup clsName) with
        | none => .error "KeyError"
        | some lastMethod =>
          if lastMethod = orig then
            match find_add_anno s.className s.fixes with
            | some fix =>
              .ok (.flattened orig fix.annots,
                popFn { s with fixes := s.fixes.erase (.addAnno fix) })
            | none => .ok (.node upd, popFn s)
          else
            .ok (.node upd, popFn s)

/-- Model of `AnnotationFixer.leave_Decorator`: a `CommentFix` targeting the
decorator appends its comment and is consumed; a
`RemoveOverloadDecoratorFix` removes the decorator (`none`) and is
consumed; any other generated fix leaves the decorator untouched. -/
def leave_Decorator (orig : Decorator) (s : FixerState) :
    Option Decorator × FixerState :=
  match get_mypy_fix s.generated_fixes (.dec orig) with
  | some (g@(.commentFix _ comment)) =>
    (some { orig with trailing_comment := some comment },
     { s with generated_fixes := s.generated_fixes.erase g })
  | some (g@(.removeOverloadDecoratorFix _)) =>
    (none, { s with generated_fixes := s.generated_fixes.erase g })
  | _ => (some orig, s)

/-- Model of `AnnotationFixer.visit_ClassDef`: push the class and remember the last
`CommentFix` targeting the class node (the source loop overwrites on each
match). -/
def visit_ClassDef (c : ClassDef) (s : FixerState) : FixerState :=
  let s := { s with last_class := s.last_class ++ [c] }
  match (s.generated_fixes.filter fun g =>
      match g with
      | .commentFix n _ => n = Node.cls c
      | _ => false).getLast? with
  | some fx => { s with class_comment_fix := some fx }
  | none => s

/-- Model of `AnnotationFixer.leave_TrailingWhitespace`: apply and consume the
pending class comment fix, returning the comment that is attached. -/
def leave_TrailingWhitespace (s : FixerState) : Option String × FixerState :=
  match s.class_comment_fix with
  | some (g@(.commentFix _ comment)) =>
    (some comment,
     { s with generated_fixes := s.generated_fixes.erase g,
              class_comment_fix := none })
  | _ => (none, s)

/-- Model of `AnnotationFixer.leave_Module`: every fix remaining in `_fixes` or
`_generated_fixes` is printed as an `ERROR: Fix was not applied` report.
The pending `AddImportFix` (held outside these two pools) is not part of
the report. -/
def unapplied_reports (s : FixerState) : List (ModFix ⊕ GenFix) :=
  s.fixes.map Sum.inl ++ s.generated_fixes.map Sum.inr

/-! ## Traversal of the functions of a class body

libcst calls `visit_FunctionDef` (which pushes the function and decides
whether to descend into its children), then — only if it descended —
`leave_Decorator` for each decorator, then `leave_FunctionDef` with the
original node and the child-updated node. -/

/-- Model of `AnnotationFixer.visit_FunctionDef` descends exactly when some generated
fix targets one of the function's decorators. -/
def visit_descends (f : FunctionDef) (s : FixerState) : Bool :=
  s.generated_fixes.any fun g =>
    f.decorators.any fun d => g.nodeMatches (Node.dec d)

/-- Run `leave_Decorator` over a decorator list, keeping the survivors. -/
def process_decorators (s : FixerState) :
    List Decorator → List Decorator × FixerState
  | [] => ([], s)
  | d :: rest =>
    match leave_Decorator d s with
    | (some d', s') =>
      let (ds, s'') := process_decorators s' rest
      (d' :: ds, s'')
    | (none, s') => process_decorators s' rest

/-- Visit one function of a class body: push it, process its decorators if
the visitor descends, then leave it.  Returns the surviving node, if any. -/
def process_function (s : FixerState) (f : FunctionDef) :
    Except String (Option FunctionDef × FixerState) := do
  let s := { s with last_function := s.last_function ++ [f] }
  let (upd, s) :=
    if visit_descends f s then
      let (ds, s') := process_decorators s f.decorators
      ({ f with decorators := ds }, s')
    else (f, s)
  let (res, s) ← leave_FunctionDef f upd s
  match res with
  | .node g => return (some g, s)
  | .flattened g _ => return (some g, s)
  | .removed => return (none, s)

/-- Visit the functions of a class body in order, collecting the
survivors. -/
def process_functions (s : FixerState) :
    List FunctionDef → Except String (List FunctionDef × FixerState)
  | [] => .ok ([], s)
  | f :: rest => do
    let (kept, s) ← process_function s f
    let (others, s) ← process_functions s rest
    return (kept.toList ++ others, s)

/-! ## The import-augmentation pass
(`visit_ImportFrom` / `leave_ImportAlias` of `AnnotationFixer`, and
`MypyVisitor._add_fix_for_missing_imports`) -/

/-- A module-level statement as far as the import pass is concerned.  A
dotted module of an import-from renders as its dotted text (never equal to
`"PyQt6"`, matching `cast(Attribute, node.module).value == "PyQt6"` being
false for `Attribute` modules).  An empty name list models `ImportStar`. -/
inductive Stmt where
  | importFrom (module : String) (names : List String)
  | other (tag : Nat)
  deriving DecidableEq, Repr

/-- The attributes of `AnnotationFixer` driving the import pass.
`import_alias_node` remembers the last `ImportAlias` of the PyQt6 import
(only its presence is ever tested). -/
structure ImportState where
  add_import_fix : Option AddImportFix
  import_alias_node : Option String
  deriving DecidableEq, Repr

/-- Model of `AnnotationFixer.visit_ImportFrom`: for a `from PyQt6 import ...` with a
pending `AddImportFix`, remember the last alias and descend; an
`ImportStar` (`names[-1]` raising `IndexError`) and every other import are
not descended into. -/
def visit_ImportFrom (module : String) (names : List String) (st : ImportState) :
    Bool × ImportState :=
  if module = "PyQt6" ∧ st.add_import_fix.isSome then
    match names.getLast? with
    | none => (false, st)
    | some a => (true, { st with import_alias_node := some a })
  else (false, st)

/-- Model of `AnnotationFixer.leave_ImportAlias`: the first alias visited while both
the remembered alias and the fix are set is flattened into itself followed
by one new alias per missing import; both attributes are then cleared. -/
def leave_ImportAlias (a : String) (st : ImportState) :
    List String × ImportState :=
  match st.import_alias_node, st.add_import_fix with
  | some _, some fix =>
    (a :: fix.missing_imports,
     { add_import_fix := none, import_alias_node := none })
  | _, _ => ([a], st)

/-- Process one statement of the module: descend into a PyQt6 import-from
and run `leave_ImportAlias` on each alias in order. -/
def processStmt (stmt : Stmt) (st : ImportState) : Stmt × ImportState :=
  match stmt with
  | .importFrom m names =>
    let (descend, st) := visit_ImportFrom m names st
    if descend then
      let (names', st') := names.foldl
        (fun (acc : List String × ImportState) a =>
          let (asNew, st'') := leave_ImportAlias a acc.2
          (acc.1 ++ asNew, st''))
        ([], st)
      (.importFrom m names', st')
    else (stmt, st)
  | .other t => (.other t, st)

/-- Run the import pass over the whole module body.  The pass is total: no
code path of `visit_ImportFrom` / `leave_ImportAlias` raises. -/
def processModule (stmts : List Stmt) (st : ImportState) :
    List Stmt × ImportState :=
  match stmts with
  | [] => ([], st)
  | stmt :: rest =>
    let (stmt', st') := processStmt stmt st
    let (rest', st'') := processModule rest st'
    (stmt' :: rest', st'')

/-- Model of `MypyVisitor._add_fix_for_missing_imports`: assert that every missing
name is `QtCore` or `QtGui`, then build the fix from `list(set(...))` of
the collected names.  Python's `set` deduplicates (with unspecified order);
we realize it as `List.dedup`, which keeps first occurrences. -/
def add_fix_for_missing_imports (missing : List String) :
    Except String AddImportFix :=
  if missing.all (fun mi => mi = "QtCore" ∨ mi = "QtGui") then
    .ok ⟨missing.dedup⟩
  else
    .error "AssertionError"

/-! ## The diagnostic-line parser (`MypyVisitor._parse_line`)

Implemented over `List Char` so that every step is a structurally recursive,
kernel-evaluable translation of the Python string operations. -/

/-- Python `s.split(c)` for a single-character separator. -/
def splitChar (c : Char) : List Char → List (List Char)
  | [] => [[]]
  | x :: xs =>
    if x = c then
      [] :: splitChar c xs
    else
      match splitChar c xs with
      | [] => [[x]]
      | part :: parts => (x :: part) :: parts

/-- The text following the first occurrence of `pat`, when present. -/
def findAfter (pat : List Char) : List Char → Option (List Char)
  | [] => if pat.isEmpty then some [] else none
  | s@(_ :: cs) =>
    if pat.isPrefixOf s then some (s.drop pat.length)
    else findAfter pat cs

/-- The text strictly between the first and (if any) second occurrence of
`pat`: Python `s.split(pat)[1]`, defined when `pat` occurs at least once. -/
def splitSecondField (pat s : List Char) : Option (List Char) :=
  match findAfter pat s with
  | none => none
  | some rest =>
    match findAfter pat rest with
    | none => some rest
    | some _ => some (rest.take (rest.length - (pat.length + (findAfterLen rest))))
where
  /-- Length of the remainder after the first occurrence of `pat` in `rest`. -/
  findAfterLen (rest : List Char) : Nat :=
    match findAfter pat rest with
    | some tl => tl.length
    | none => 0

/-- Parse a digit run as a natural number; `none` on a non-digit or an
empty run. -/
def digitsToNat : List Char → Option Nat
  | [] => none
  | ds => ds.foldlM (fun acc c => if c.isDigit then some (acc * 10 + (c.toNat - 48)) else none) 0

/-- Python `int(s)` restricted to the shapes mypy emits: optional
surrounding whitespace, an optional sign, then digits; everything else
raises `ValueError` (`none`).  (Python also accepts underscore group
separators, which never occur in mypy line numbers.) -/
def pyInt (s : List Char) : Option Int :=
  let t := (s.dropWhile (·.isWhitespace)).reverse.dropWhile (·.isWhitespace) |>.reverse
  match t with
  | '-' :: ds => (digitsToNat ds).map (fun n => -(n : Int))
  | '+' :: ds => (digitsToNat ds).map (fun n => (n : Int))
  | ds => (digitsToNat ds).map (fun n => (n : Int))

/-- The outcome of `MypyVisitor._parse_line` as observed by its caller
`_parse_mypy_result`: a parsed diagnostic, an `IndexError` (caught by the
caller, which skips the line), an `AssertionError` (fatal), or a
`ValueError` from `int(...)` (fatal, uncaught). -/
inductive ParseOutcome where
  | ok (lineNbr : Int) (msg : List Char)
  | skip
  | assertError
  | valueError
  deriving DecidableEq, Repr

/-- Model of `MypyVisitor._parse_line`.  `line.split(":", 2)[1]` raises `IndexError`
when the line has no colon; the handler asserts the line is empty or is a
summary line starting with `"Found "` and ending with `"source file)"`, and
re-raises the `IndexError`.  `int(...)` raises `ValueError` on a non-number.
`line.split("error: ")[1]` raises `IndexError` (a skip) when the line holds
no `error: ` segment. -/
def parse_line (line : String) : ParseOutcome :=
  let cs := line.data
  match (splitChar ':' cs).get? 1 with
  | none =>
    if cs.isEmpty
        ∨ ("Found ".data.isPrefixOf cs
            ∧ "source file)".data.reverse.isPrefixOf cs.reverse) then
      .skip
    else
      .assertError
  | some field =>
    match pyInt field with
    | none => .valueError
    | some n =>
      match splitSecondField "error: ".data cs with
      | none => .skip
      | some msg => .ok n msg

/-! ## The overload-decorator cascade (`MypyVisitor.leave_ClassDef`) -/

/-- Model of `MypyVisitor._is_overload_decorator`: the decorator expression's
children are a `Name` `typing`, anything, a `Name` `overload`, possibly
followed by more children. -/
def is_overload_decorator (d : Decorator) : Bool :=
  match d.children with
  | .nameNode v0 :: _ :: .nameNode v2 :: _ => v0 = "typing" ∧ v2 = "overload"
  | _ => false

/-- The loop body of `MypyVisitor.leave_ClassDef` for one fix of the pool:
a `RemoveFix` whose node is one of the collected class functions, such that
exactly one other same-named function remains, yields one
`RemoveOverloadDecoratorFix` per overload decorator of that remaining
function. -/
def cascade_for_fix (class_functions : List FunctionDef) (fix : GenFix) :
    List GenFix :=
  match fix with
  | .removeFix (.fn f) =>
    if class_functions.contains f then
      match class_functions.filter (fun g => g.name = f.name ∧ g ≠ f) with
      | [g] =>
        (g.decorators.filter is_overload_decorator).map
          GenFix.removeOverloadDecoratorFix
      | _ => []
    else []
  | _ => []

/-- Model of `MypyVisitor.leave_ClassDef` (identically `FixCreator.leave_ClassDef`):
append the cascade fixes to the pool (the fixes appended during the
iteration are never `RemoveFix`es, so iterating the growing list is the
same as iterating the original), then clear the collected class
functions. -/
def mypy_leave_ClassDef (fixes : List GenFix)
    (class_functions : List FunctionDef) :
    List GenFix × List FunctionDef :=
  (fixes ++ fixes.flatMap (cascade_for_fix class_functions), [])

/-! ## The custom fixer (`fixes/custom_fixer.py`) -/

/-- A hand-authored whole-signature replacement (`fixes/base_fix.py`):
`fixed_code` is either one statement or a list of statements. -/
structure CustomFix where
  qt_module : String
  qt_class : Option String
  qt_method : String
  fixed_code : String ⊕ List String
  deriving DecidableEq, Repr

/-- What `CustomFixer.leave_FunctionDef` returns: a single replacement
statement, a flattened list of statements, or the unchanged node. -/
inductive CustomResult where
  | single (stmt : String)
  | flattened (stmts : List String)
  | unchanged (f : FunctionDef)
  deriving DecidableEq, Repr

/-- Model of `CustomFixer.create_fix`. -/
def create_fix (fix : CustomFix) : CustomResult :=
  match fix.fixed_code with
  | .inl stmt => .single stmt
  | .inr stmts => .flattened stmts

/-- Model of `CustomFixer.leave_FunctionDef`: the first fix whose `qt_class` equals
the name of the outermost class on the stack (`self._last_class[0]`; `None`
matches the absence of any class, via the `IndexError` handler) and whose
`qt_method` equals the function name replaces the function.  The module
name stored by the constructor is never consulted. -/
def customFixer_leave_FunctionDef (mod_name : String)
    (last_class : List ClassDef) (node : FunctionDef) :
    List CustomFix → CustomResult
  | [] => .unchanged node
  | fix :: rest =>
    match last_class.head? with
    | some c =>
      if fix.qt_class = some c.name ∧ fix.qt_method = node.name then
        create_fix fix
      else customFixer_leave_FunctionDef mod_name last_class node rest
    | none =>
      if fix.qt_class = none ∧ fix.qt_method = node.name then
        create_fix fix
      else customFixer_leave_FunctionDef mod_name last_class node rest

/-- Does a custom fix match the traversal position (outermost class and
method name)?  This is the matching relation the code actually implements;
note the absence of any module condition. -/
def customFixMatches (fix : CustomFix) (last_class : List ClassDef)
    (fnName : String) : Bool :=
  match last_class.head? with
  | some c => fix.qt_class = some c.name ∧ fix.qt_method = fnName
  | none => fix.qt_class = none ∧ fix.qt_method = fnName

/-! ## Concrete instances (the worked examples of the specification) -/

/-- Parameters of `def setText(self, a0: str) -> None`. -/
def exParams : Parameters :=
  ⟨[⟨"self", none⟩, ⟨"a0", some "str"⟩], none, [], none⟩

/-- The first rule of `ANNOTATION_FIXES`:
`AnnotationFix("QtWidgets", "QLineEdit", "setText",
[FixParameter("a0", "typing.Optional[str]", "str")])`. -/
def exRule : AnnotationFix :=
  ⟨"QtWidgets", "QLineEdit", "setText",
   [⟨"a0", "typing.Optional[str]", some "str"⟩], none, none, false⟩

/-- The same rule against a stub whose recorded current annotation drifted
(`int` instead of `str`). -/
def badRule : AnnotationFix :=
  ⟨"QtWidgets", "QLineEdit", "setText",
   [⟨"a0", "typing.Optional[str]", some "int"⟩], none, none, false⟩

/-- Model of `def setText(self, a0: str) -> None: ...` of class `QLineEdit`. -/
def exFn : FunctionDef :=
  ⟨"setText", exParams, [], some "None", none, 0⟩

/-- A generated `CommentFix` targeting `exFn`. -/
def exGenFix : GenFix := .commentFix (.fn exFn) "# type: ignore[override]"

/-- A fixer state in which `exFn` is both rule-matched by `exRule` and
targeted by the generated `exGenFix`. -/
def exS3 : FixerState :=
  ⟨[⟨"QLineEdit"⟩], [exFn], [.anno exRule], [exGenFix],
   [("QLineEdit", exFn)], none⟩

/-- Model of `exFn` after `exRule` is applied:
`def setText(self, a0: typing.Optional[str]) -> None: ...`. -/
def exFn3 : FunctionDef :=
  ⟨"setText", ⟨[⟨"self", none⟩, ⟨"a0", some "typing.Optional[str]"⟩], none, [], none⟩,
   [], some "None", none, 0⟩

/-- The state after `leave_FunctionDef` applies `exRule` in `exS3`: the rule
is consumed, the generated fix is still pending. -/
def exS3out : FixerState :=
  ⟨[⟨"QLineEdit"⟩], [], [], [exGenFix], [("QLineEdit", exFn)], none⟩

/-- A state for a module-level function: empty class stack, yet with a rule
and a generated fix targeting the function. -/
def exS10 : FixerState :=
  ⟨[], [exFn], [.anno exRule], [exGenFix], [], none⟩

/-- Model of `FixQLineEditSetTextNone` of `fixes/custom_fixes/qlineedit_settext_none.py`. -/
def exCustomFix : CustomFix :=
  ⟨"QtWidgets", some "QLineEdit", "setText",
   .inl "def setText(self, a0: typing.Optional[str]) -> None: ..."⟩

/-- A `@typing.overload` decorator. -/
def exOverloadDec : Decorator :=
  ⟨[.nameNode "typing", .dot, .nameNode "overload"], none⟩

/-- First overload of method `find`, the one mypy flags as unmatchable. -/
def exF7 : FunctionDef :=
  ⟨"find", ⟨[⟨"self", none⟩, ⟨"sub", some "str"⟩], none, [], none⟩,
   [exOverloadDec], some "None", none, 0⟩

/-- Second overload of method `find`, the one that remains. -/
def exG7 : FunctionDef :=
  ⟨"find", ⟨[⟨"self", none⟩, ⟨"expr", some "int"⟩], none, [], none⟩,
   [exOverloadDec], some "None", none, 1⟩

/-- The remaining overload after the rewrite: no overload marker left. -/
def exG7clean : FunctionDef :=
  ⟨"find", ⟨[⟨"self", none⟩, ⟨"expr", some "int"⟩], none, [], none⟩,
   [], some "None", none, 1⟩

/-- The generated pool after `MypyVisitor.leave_ClassDef` ran the cascade on
`[removeFix exF7]` with class functions `[exG7, exF7]`. -/
def exFixes7 : List GenFix :=
  (mypy_leave_ClassDef [.removeFix (.fn exF7)] [exG7, exF7]).1

/-- The rewriter state for the cascade scenario. -/
def exS7 : FixerState :=
  ⟨[⟨"QTextDocument"⟩], [], [], exFixes7, [("QTextDocument", exF7)], none⟩

/-- A module body with no `from PyQt6 import ...` statement. -/
def exStmts : List Stmt := [.other 0, .importFrom "enum" ["Enum"]]

/-- An import state with a pending `AddImportFix` for `QtGui`. -/
def exImpSt : ImportState := ⟨some ⟨["QtGui"]⟩, none⟩

/-- A state where only the generated `exGenFix` targets `exFn` (no rule). -/
def exS8 : FixerState :=
  ⟨[⟨"QLineEdit"⟩], [exFn], [], [exGenFix], [("QLineEdit", exFn)], none⟩

/-- Model of `exFn` after the generated comment fix appended its comment. -/
def exFnC : FunctionDef :=
  ⟨"setText", exParams, [], some "None", some "# type: ignore[override]", 0⟩

/-- The state after `leave_FunctionDef` consumes `exGenFix` in `exS8`. -/
def exS8out : FixerState :=
  ⟨[⟨"QLineEdit"⟩], [], [], [], [("QLineEdit", exFn)], none⟩

/-! ## Helper lemmas -/

/-- Everything `_get_fix` guarantees about a returned rule: it is in the
pool, its class and method names match the traversal position, its arity
check passed, and its parameter check passed. -/
theorem get_fix_aux_spec (cls fn : Option String) (ps : Parameters) :
    ∀ pool fix, get_fix_aux cls fn ps pool = some fix →
      ModFix.anno fix ∈ pool ∧ some fix.class_name = cls
        ∧ some fix.method_name = fn
        ∧ ¬((fix.static ∧ (ps.childCount : Int) ≠ fix.params.length)
            ∨ (¬fix.static ∧ (ps.childCount : Int) - 1 ≠ fix.params.length))
        ∧ check_parameters ps fix = true := by
  intro pool
  induction pool with
  | nil => intro fix h; simp [get_fix_aux] at h
  | cons head rest ih =>
    intro fix h
    cases head with
    | addAnno a =>
      rw [get_fix_aux] at h
      obtain ⟨hmem, hrest⟩ := ih fix h
      exact ⟨List.mem_cons_of_mem _ hmem, hrest⟩
    | anno f =>
      rw [get_fix_aux] at h
      by_cases hnames : some f.class_name = cls ∧ some f.method_name = fn
      · rw [if_pos hnames] at h
        by_cases harity : (f.static ∧ (ps.childCount : Int) ≠ f.params.length)
            ∨ (¬f.static ∧ (ps.childCount : Int) - 1 ≠ f.params.length)
        · rw [if_pos harity] at h; exact absurd h (by simp)
        · rw [if_neg harity] at h
          by_cases hcheck : ¬check_parameters ps f = true
          · rw [if_pos hcheck] at h
            obtain ⟨hmem, hrest⟩ := ih fix h
            exact ⟨List.mem_cons_of_mem _ hmem, hrest⟩
          · rw [if_neg hcheck] at h
            push_neg at hcheck
            cases hstar : ps.star_arg with
            | none =>
              simp only [hstar] at h
              cases h
              exact ⟨List.mem_cons_self _ _, hnames.1, hnames.2, harity, hcheck⟩
            | some sp =>
              simp only [hstar] at h
              split at h
              · exact absurd h (by simp)
              · cases h
                exact ⟨List.mem_cons_self _ _, hnames.1, hnames.2, harity, hcheck⟩
      · rw [if_neg hnames] at h
        obtain ⟨hmem, hrest⟩ := ih fix h
        exact ⟨List.mem_cons_of_mem _ hmem, hrest⟩

/-- A rule that is not in the pool is never returned by `_get_fix`. -/
theorem get_fix_aux_of_not_mem (cls fn : Option String) (ps : Parameters)
    (pool : List ModFix) (fix : AnnotationFix)
    (h : ModFix.anno fix ∉ pool) : get_fix_aux cls fn ps pool ≠ some fix :=
  fun hsome => h (get_fix_aux_spec cls fn ps pool fix hsome).1

/-- A generated fix returned by `_get_mypy_fix` is in the pool. -/
theorem get_mypy_fix_mem (pool : List GenFix) (n : Node) (g : GenFix)
    (h : get_mypy_fix pool n = some g) : g ∈ pool :=
  List.mem_of_find?_eq_some h

/-- A generated fix that is not in the pool is never returned by
`_get_mypy_fix`. -/
theorem get_mypy_fix_of_not_mem (pool : List GenFix) (g : GenFix)
    (h : g ∉ pool) : ∀ n, get_mypy_fix pool n ≠ some g :=
  fun _ hsome => h (List.mem_of_find?_eq_some hsome)

/-! ## The claims -/

/-- C1: every rule returned by `_get_fix` has the class/method names of the
traversal position and passes the arity check: a static rule matches only a
function whose total parameter count (`len(params.children)`) equals the
rule's parameter count, a non-static rule only a function with one more
parameter (the implicit receiver); a name-matching rule with any other
arity is never the returned match. -/
theorem C1_arity_matching (cls fn : Option String) (ps : Parameters)
    (pool : List ModFix) (fix : AnnotationFix)
    (h : get_fix_aux cls fn ps pool = some fix) :
    some fix.class_name = cls ∧ some fix.method_name = fn
      ∧ (fix.static = true → (ps.childCount : Int) = fix.params.length)
      ∧ (fix.static = false → (ps.childCount : Int) = fix.params.length + 1) := by
  obtain ⟨-, hcls, hfn, harity, -⟩ := get_fix_aux_spec cls fn ps pool fix h
  push_neg at harity
  obtain ⟨hstatic, hnonstatic⟩ := harity
  refine ⟨hcls, hfn, ?_, ?_⟩
  · intro hs
    exact hstatic (by simp [hs])
  · intro hs
    have := hnonstatic (by simp [hs])
    omega

/-- C1 witness: `exRule` (non-static, one declared parameter) is returned
for `def setText(self, a0: str)` whose two parameters are receiver plus
`a0`. -/
theorem C1_witness :
    some exRule.class_name = some "QLineEdit"
      ∧ some exRule.method_name = some "setText"
      ∧ (exRule.static = true → (exParams.childCount : Int) = exRule.params.length)
      ∧ (exRule.static = false →
          (exParams.childCount : Int) = exRule.params.length + 1) :=
  C1_arity_matching (some "QLineEdit") (some "setText") exParams
    [ModFix.anno exRule] exRule (by decide)

/-- C2: `_check_parameters` succeeds exactly when every actual non-receiver
parameter is matched by some non-star rule parameter with the same name and
the same quote-normalized current-annotation text; and a name-matching rule
that fails this check (for instance because a current annotation differs)
is silently skipped by `_get_fix` — the search just continues past it, with
no error and no change to the pool. -/
theorem C2_parameter_matching (ps : Parameters) (fix : AnnotationFix) :
    (check_parameters ps fix = true ↔
      ∀ p ∈ ps.params, p.name ≠ "self" →
        ∃ fp ∈ fix.params, pyStartsWith fp.name "*" = false
          ∧ fp.name = p.name ∧ annotMatches p fp = true)
    ∧ (∀ cls fn rest,
        some fix.class_name = cls → some fix.method_name = fn →
        ¬((fix.static ∧ (ps.childCount : Int) ≠ fix.params.length)
          ∨ (¬fix.static ∧ (ps.childCount : Int) - 1 ≠ fix.params.length)) →
        check_parameters ps fix = false →
        get_fix_aux cls fn ps (ModFix.anno fix :: rest)
          = get_fix_aux cls fn ps rest) := by
  constructor
  · simp only [check_parameters, List.all_eq_true]
    constructor
    · intro h p hp hself
      have hcond := h p hp
      rw [if_neg hself] at hcond
      simp only [List.any_eq_true] at hcond
      obtain ⟨fp, hfp, hcond⟩ := hcond
      by_cases hstar : pyStartsWith fp.name "*" = true
      · rw [if_pos hstar] at hcond; exact absurd hcond (by simp)
      · rw [if_neg hstar] at hcond
        simp only [Bool.and_eq_true, decide_eq_true_eq] at hcond
        exact ⟨fp, hfp, by simpa using hstar, hcond.1, hcond.2⟩
    · intro h p hp
      by_cases hself : p.name = "self"
      · rw [if_pos hself]
      · rw [if_neg hself]
        obtain ⟨fp, hfp, hstar, hname, hannot⟩ := h p hp hself
        simp only [List.any_eq_true]
        refine ⟨fp, hfp, ?_⟩
        rw [if_neg (by simp [hstar])]
        simp [hname, hannot]
  · intro cls fn rest hcls hfn harity hcheck
    rw [get_fix_aux, if_pos ⟨hcls, hfn⟩, if_neg harity,
      if_pos (by simp [hcheck])]

/-- C2 witness: `badRule` records current annotation `int` while the actual
parameter is annotated `str`; the rule is a non-match and `_get_fix` skips
it, leaving it pending. -/
theorem C2_witness :
    check_parameters exParams badRule = false
      ∧ get_fix_aux (some "QLineEdit") (some "setText") exParams
          [ModFix.anno badRule] = none := by
  refine ⟨by decide, ?_⟩
  have h := (C2_parameter_matching exParams badRule).2 (some "QLineEdit")
    (some "setText") [] (by decide) (by decide) (by decide) (by decide)
  rw [h]; rfl

/-- C10: when the class stack is empty, `leave_FunctionDef` only pops the
function stack and returns the node unchanged: no rule is matched, no
generated fix is applied, both pending pools are untouched — even when a
rule or a generated fix targets the function. -/
theorem C10_module_level_passthrough (s : FixerState) (orig upd : FunctionDef)
    (h : s.last_class = []) :
    leave_FunctionDef orig upd s = .ok (.node upd, popFn s)
      ∧ (popFn s).fixes = s.fixes
      ∧ (popFn s).generated_fixes = s.generated_fixes := by
  have hcls : s.className = none := by simp [FixerState.className, h]
  exact ⟨by simp only [leave_FunctionDef, hcls], rfl, rfl⟩

/-- C10 witness: in `exS10` the class stack is empty although `exRule`
matches `exFn` by name and `exGenFix` targets `exFn`; the function passes
through unchanged. -/
theorem C10_witness :
    leave_FunctionDef exFn exFn exS10 = .ok (.node exFn, popFn exS10)
      ∧ (popFn exS10).fixes = exS10.fixes
      ∧ (popFn exS10).generated_fixes = exS10.generated_fixes :=
  C10_module_level_passthrough exS10 exFn exFn rfl

/-- Model of `CustomFixer.leave_FunctionDef` equals a first-match search over the
pool keyed by (outermost class, method) only; the stored module name does
not enter the computation. -/
theorem customFixer_leave_eq (m : String) (lc : List ClassDef)
    (node : FunctionDef) :
    ∀ fixes, customFixer_leave_FunctionDef m lc node fixes
      = (match fixes.find? (fun fix => customFixMatches fix lc node.name) with
         | some fix => create_fix fix
         | none => CustomResult.unchanged node) := by
  intro fixes
  induction fixes with
  | nil => rfl
  | cons fix rest ih =>
    cases hh : lc.head? with
    | some c =>
      by_cases hguard : fix.qt_class = some c.name ∧ fix.qt_method = node.name
      · rw [customFixer_leave_FunctionDef]
        simp only [hh, if_pos hguard]
        rw [List.find?_cons_of_pos _ (by simp [customFixMatches, hh, hguard])]
      · rw [customFixer_leave_FunctionDef]
        simp only [hh, if_neg hguard]
        rw [ih, List.find?_cons_of_neg _
          (by simp [customFixMatches, hh]; intro h1; simp [h1] at hguard; exact hguard)]
    | none =>
      by_cases hguard : fix.qt_class = none ∧ fix.qt_method = node.name
      · rw [customFixer_leave_FunctionDef]
        simp only [hh, if_pos hguard]
        rw [List.find?_cons_of_pos _ (by simp [customFixMatches, hh, hguard])]
      · rw [customFixer_leave_FunctionDef]
        simp only [hh, if_neg hguard]
        rw [ih, List.find?_cons_of_neg _
          (by simp [customFixMatches, hh]; intro h1; simp [h1] at hguard; exact hguard)]

/-- C9 (amended): a custom fix is applied iff its (optional class, method)
pair matches the outermost enclosing class (or the absence of any class)
and the function name — the first such fix in pool order wins — and the
result is entirely independent of the module name: the module key of a
custom fix is never consulted. -/
theorem C9_module_key_ignored (m m2 : String) (lc : List ClassDef)
    (node : FunctionDef) (fixes : List CustomFix) :
    customFixer_leave_FunctionDef m lc node fixes
        = customFixer_leave_FunctionDef m2 lc node fixes
      ∧ customFixer_leave_FunctionDef m lc node fixes
        = (match fixes.find? (fun fix => customFixMatches fix lc node.name) with
           | some fix => create_fix fix
           | none => CustomResult.unchanged node) :=
  ⟨(customFixer_leave_eq m lc node fixes).trans
      (customFixer_leave_eq m2 lc node fixes).symm,
   customFixer_leave_eq m lc node fixes⟩

/-- C9 counterexample: `FixQLineEditSetTextNone` is keyed to module
`QtWidgets`, yet `CustomFixer` for module `QtCore` still replaces a
same-named `QLineEdit.setText` — matching beyond (class, method) does not
happen, refuting that a rule keyed to one module never rewrites in a
different module. -/
theorem C9_counterexample :
    customFixer_leave_FunctionDef "QtCore" [⟨"QLineEdit"⟩] exFn [exCustomFix]
        = .single "def setText(self, a0: typing.Optional[str]) -> None: ..."
      ∧ exCustomFix.qt_module = "QtWidgets"
      ∧ "QtWidgets" ≠ "QtCore" := by decide

/-- C4 counterexample: the terminator shape claimed to be skipped,
`Found <n> errors in <n> files (checked <n> source files)`, fails the
assertion at `n = 2`: the assert requires the singular suffix
`source file)`, so the plural form raises `AssertionError` instead of
being skipped. -/
theorem C4_counterexample :
    parse_line "Found 2 errors in 2 files (checked 2 source files)"
        = .assertError
      ∧ parse_line "Found 2 errors in 2 files (checked 2 source files)"
        ≠ .skip := by decide

/-- C4 (amended): `_parse_line` skips the empty line and terminator lines
ending with the singular `source file)`; any other line without a second
colon field raises `AssertionError`; a second colon field that is not an
integer raises `ValueError` (not an `AssertionError`); and a line with a
line number but no `error: ` segment (a note) is skipped silently. -/
theorem C4_parse_line_outcomes (line : String) :
    (line = "" → parse_line line = .skip)
    ∧ ((splitChar ':' line.data).get? 1 = none →
        "Found ".data.isPrefixOf line.data = true →
        "source file)".data.reverse.isPrefixOf line.data.reverse = true →
        parse_line line = .skip)
    ∧ ((splitChar ':' line.data).get? 1 = none → line ≠ "" →
        ¬("Found ".data.isPrefixOf line.data = true
           ∧ "source file)".data.reverse.isPrefixOf line.data.reverse = true) →
        parse_line line = .assertError)
    ∧ (∀ field, (splitChar ':' line.data).get? 1 = some field →
        pyInt field = none → parse_line line = .valueError)
    ∧ (∀ field n, (splitChar ':' line.data).get? 1 = some field →
        pyInt field = some n →
        splitSecondField "error: ".data line.data = none →
        parse_line line = .skip)
    ∧ (∀ field n msg, (splitChar ':' line.data).get? 1 = some field →
        pyInt field = some n →
        splitSecondField "error: ".data line.data = some msg →
        parse_line line = .ok n msg) := by
  refine ⟨?_, ?_, ?_, ?_, ?_, ?_⟩
  · intro h; subst h; decide
  · intro h1 h2 h3
    simp only [parse_line, h1]
    rw [if_pos (Or.inr ⟨h2, h3⟩)]
  · intro h1 h2 h3
    simp only [parse_line, h1]
    rw [if_neg]
    intro hor
    rcases hor with hemp | hboth
    · refine h2 ?_
      cases line with
      | mk cs => simp only [List.isEmpty_iff] at hemp; simp [hemp]
    · exact h3 hboth
  · intro field h1 h2
    simp only [parse_line, h1, h2]
  · intro field n h1 h2 h3
    simp only [parse_line, h1, h2, h3]
  · intro field n msg h1 h2 h3
    simp only [parse_line, h1, h2, h3]

/-- C4 witness: one line per amended case — the empty line, the singular
terminator, a note line, an unparseable line, and a line with a non-numeric
line field. -/
theorem C4_witness :
    parse_line "" = .skip
    ∧ parse_line "Found 3 errors in 1 file (checked 1 source file)" = .skip
    ∧ parse_line "QtCore.pyi:10: note: blah" = .skip
    ∧ parse_line "abc def" = .assertError
    ∧ parse_line "a:b: error: x" = .valueError
    ∧ parse_line "QtWidgets.pyi:10: error: nope" = .ok 10 "nope".data := by
  refine ⟨(C4_parse_line_outcomes "").1 rfl, ?_, ?_, ?_, ?_, ?_⟩
  · exact (C4_parse_line_outcomes _).2.1 (by decide) (by decide) (by decide)
  · exact (C4_parse_line_outcomes _).2.2.2.2.1 "10".data 10 (by decide)
      (by decide) (by decide)
  · exact (C4_parse_line_outcomes _).2.2.1 (by decide) (by decide) (by decide)
  · exact (C4_parse_line_outcomes _).2.2.2.1 "b".data (by decide) (by decide)
  · exact (C4_parse_line_outcomes _).2.2.2.2.2 "10".data 10 "nope".data
      (by decide) (by decide) (by decide)

/-- C6: the `AddImportFix` built by `_add_fix_for_missing_imports` holds
each missing name at most once (`list(set(...))` deduplicates), so applying
it in `leave_ImportAlias` adds at most one new alias per name, and the
application clears the fix so it can never be applied a second time; a
cleared state leaves every later alias untouched. -/
theorem C6_import_idempotent (missing : List String) (fix : AddImportFix)
    (hfix : add_fix_for_missing_imports missing = .ok fix)
    (x a : String) :
    fix.missing_imports.Nodup
    ∧ (∀ name, fix.missing_imports.count name ≤ 1)
    ∧ leave_ImportAlias a ⟨some fix, some x⟩
        = (a :: fix.missing_imports, ⟨none, none⟩)
    ∧ (∀ b, leave_ImportAlias b ⟨none, none⟩ = ([b], ⟨none, none⟩)) := by
  have hfix' : fix = ⟨missing.dedup⟩ := by
    unfold add_fix_for_missing_imports at hfix
    split at hfix
    · cases hfix; rfl
    · exact absurd hfix (by simp)
  subst hfix'
  exact ⟨List.nodup_dedup missing,
    fun name => List.nodup_iff_count_le_one.mp (List.nodup_dedup missing) name,
    rfl, fun b => rfl⟩

/-- C6 witness: the name `QtGui` reported twice yields a single occurrence
in the fix and a single new alias. -/
theorem C6_witness :
    (AddImportFix.mk ["QtGui", "QtCore"]).missing_imports.Nodup
    ∧ (∀ name,
        (AddImportFix.mk ["QtGui", "QtCore"]).missing_imports.count name ≤ 1)
    ∧ leave_ImportAlias "QtCore"
        ⟨some ⟨["QtGui", "QtCore"]⟩, some "QtCore"⟩
        = ("QtCore" :: ["QtGui", "QtCore"], ⟨none, none⟩)
    ∧ (∀ b, leave_ImportAlias b ⟨none, none⟩ = ([b], ⟨none, none⟩)) :=
  C6_import_idempotent ["QtGui", "QtGui", "QtCore"] ⟨["QtGui", "QtCore"]⟩
    (by decide) "QtCore" "QtCore"

/-- C5 counterexample: a module with no `from PyQt6 import ...` statement
and a pending `AddImportFix` — the whole import pass completes normally
(its type is total: nothing in the translated code path can raise), the
module is unchanged, and the fix is still pending afterwards, refuting that
processing fails fatally. -/
theorem C5_counterexample :
    processModule exStmts exImpSt = (exStmts, exImpSt)
      ∧ (processModule exStmts exImpSt).2.add_import_fix = some ⟨["QtGui"]⟩ := by
  decide

/-- C5 (amended): when the module holds no extendable `from PyQt6 import`
statement, the import pass is a no-op — no exception, module and pending
`AddImportFix` untouched — and the end-of-module report covers only the
rule pool and the generated pool, so the unapplied `AddImportFix` is not
even reported. -/
theorem C5_missing_anchor_silent (stmts : List Stmt) (st : ImportState)
    (h : ∀ m names, Stmt.importFrom m names ∈ stmts → m = "PyQt6" → names = []) :
    processModule stmts st = (stmts, st)
    ∧ (∀ s : FixerState, unapplied_reports s
        = s.fixes.map Sum.inl ++ s.generated_fixes.map Sum.inr) := by
  refine ⟨?_, fun s => rfl⟩
  revert h
  induction stmts with
  | nil => intro h; rfl
  | cons stmt rest ih =>
    intro h
    have hstmt : processStmt stmt st = (stmt, st) := by
      cases stmt with
      | other t => rfl
      | importFrom m names =>
        by_cases hm : m = "PyQt6" ∧ st.add_import_fix.isSome = true
        · have hnil : names = [] := h m names (List.mem_cons_self _ _) hm.1
          subst hnil
          simp [processStmt, visit_ImportFrom, hm]
        · simp [processStmt, visit_ImportFrom, hm]
    have hrest := ih (fun m names hmem hp =>
      h m names (List.mem_cons_of_mem _ hmem) hp)
    simp only [processModule, hstmt, hrest]

/-- C5 witness for the amended claim: the concrete module `exStmts` with
the concrete pending fix. -/
theorem C5_witness :
    processModule exStmts exImpSt = (exStmts, exImpSt)
    ∧ (∀ s : FixerState, unapplied_reports s
        = s.fixes.map Sum.inl ++ s.generated_fixes.map Sum.inr) :=
  C5_missing_anchor_silent exStmts exImpSt (by
    intro m names hmem hm
    simp only [exStmts, List.mem_cons, List.not_mem_nil, or_false] at hmem
    rcases hmem with h1 | h1
    · exact Stmt.noConfusion h1
    · injection h1 with hm2 hn2
      rw [hm2] at hm
      exact absurd hm (by decide))

/-- C3 counterexample: in `exS3` the function `exFn` both matches the rule
`exRule` and is the target of the unconsumed generated `exGenFix`, yet
`leave_FunctionDef` does not raise: it applies the rule edit and returns
normally, with the generated fix still pending. -/
theorem C3_counterexample :
    FixerState.get_fix exS3 = some exRule
      ∧ get_mypy_fix exS3.generated_fixes (.fn exFn) = some exGenFix
      ∧ leave_FunctionDef exFn exFn exS3 = .ok (.node exFn3, exS3out)
      ∧ exS3out.generated_fixes = [exGenFix] := by decide

/-- C3 (amended): when a function matches a rule and is also targeted by an
unconsumed generated fix, the rule branch wins: the rule edit is applied
and consumed, the generated fix is untouched and stays pending, and no
assertion fires — the `assert not function_fix` of the source sits in the
generated-fix branch, which is only reached when no rule matched, so it can
never fail. -/
theorem C3_rule_priority (s : FixerState) (orig upd : FunctionDef)
    (fix : AnnotationFix) (g : GenFix)
    (hrule : s.get_fix = some fix)
    (hgen : get_mypy_fix s.generated_fixes (.fn orig) = some g)
    (res : LeaveFnResult) (s' : FixerState)
    (hok : leave_FunctionDef orig upd s = .ok (res, s')) :
    s'.generated_fixes = s.generated_fixes
    ∧ g ∈ s'.generated_fixes
    ∧ s'.fixes = s.fixes.erase (.anno fix)
    ∧ (∃ upd1, apply_fix_params fix upd = .ok upd1
        ∧ res = .node (apply_return_value fix upd1)) := by
  have hcls : s.className = some fix.class_name := by
    unfold FixerState.get_fix at hrule
    cases hlf : s.last_function.getLast? with
    | none => rw [hlf] at hrule; exact absurd hrule (by simp)
    | some f =>
      rw [hlf] at hrule
      exact ((get_fix_aux_spec _ _ _ _ _ hrule).2.1).symm
  simp only [leave_FunctionDef, hcls, hrule] at hok
  cases happ : apply_fix_params fix upd with
  | error e => rw [happ] at hok; exact absurd hok (by simp)
  | ok upd1 =>
    rw [happ] at hok
    injection hok with hok
    cases hok
    refine ⟨by simp [popFn], ?_, by simp [popFn], upd1, rfl, rfl⟩
    have := get_mypy_fix_mem _ _ _ hgen
    simpa [popFn] using this

/-- C3 witness for the amended claim, at the concrete conflict state. -/
theorem C3_witness :
    exS3out.generated_fixes = exS3.generated_fixes
    ∧ exGenFix ∈ exS3out.generated_fixes
    ∧ exS3out.fixes = exS3.fixes.erase (.anno exRule)
    ∧ (∃ upd1, apply_fix_params exRule exFn = .ok upd1
        ∧ LeaveFnResult.node exFn3 = .node (apply_return_value exRule upd1)) :=
  C3_rule_priority exS3 exFn exFn exRule exGenFix (by decide) (by decide)
    (.node exFn3) exS3out (by decide)

/-- C7: a `RemoveFix` for a collected class function whose removal leaves
exactly one other same-named function, carrying `typing.overload`
decorator(s), makes `leave_ClassDef` emit one
`RemoveOverloadDecoratorFix` per such decorator; the collected functions
are cleared on class exit; and in the two-overload scenario the rewriter
then ends with exactly one method of that name and no overload marker. -/
theorem C7_overload_cascade :
    (∀ (fixes : List GenFix) (cfs : List FunctionDef) (f g : FunctionDef),
      GenFix.removeFix (.fn f) ∈ fixes →
      cfs.contains f = true →
      cfs.filter (fun h => h.name = f.name ∧ h ≠ f) = [g] →
      ∀ d ∈ g.decorators, is_overload_decorator d = true →
        GenFix.removeOverloadDecoratorFix d ∈ (mypy_leave_ClassDef fixes cfs).1)
    ∧ (∀ (fixes : List GenFix) (cfs : List FunctionDef),
        (mypy_leave_ClassDef fixes cfs).2 = [])
    ∧ (mypy_leave_ClassDef [.removeFix (.fn exF7)] [exG7, exF7]
        = (exFixes7, [])
      ∧ process_functions exS7 [exG7, exF7]
        = .ok ([exG7clean],
            ⟨[⟨"QTextDocument"⟩], [], [], [], [("QTextDocument", exF7)], none⟩)
      ∧ exG7clean.name = exF7.name
      ∧ exG7clean.decorators.all (fun d => ¬is_overload_decorator d) = true) := by
  refine ⟨?_, fun fixes cfs => rfl, by decide⟩
  intro fixes cfs f g hmem hcont hfilter d hd hover
  unfold mypy_leave_ClassDef
  refine List.mem_append.mpr (Or.inr (List.mem_flatMap.mpr ⟨_, hmem, ?_⟩))
  simp only [cascade_for_fix, hcont, if_true, hfilter]
  exact List.mem_map.mpr ⟨d, List.mem_filter.mpr ⟨hd, hover⟩, rfl⟩

/-- C7 witness: the concrete two-overload class instantiates the general
emission conjunct. -/
theorem C7_witness :
    GenFix.removeOverloadDecoratorFix exOverloadDec
      ∈ (mypy_leave_ClassDef [.removeFix (.fn exF7)] [exG7, exF7]).1 :=
  C7_overload_cascade.1 [.removeFix (.fn exF7)] [exG7, exF7] exF7 exG7
    (by decide) (by decide) (by decide) exOverloadDec (by decide) (by decide)

/-- C8: consumption is at most once, and leftovers are reported.  When
`leave_FunctionDef` applies a rule it erases it from the rule pool (if it
occurred once it is gone and can never be matched again); when it applies a
generated fix it erases it from the generated pool; `leave_Decorator`
likewise erases the fix it applies; `_get_fix` and `_get_mypy_fix` only
ever return pool members, so an erased unique fix cannot be applied to a
second node; and `leave_Module` reports every fix remaining in either
pool. -/
theorem C8_exactly_once (s : FixerState) :
    (∀ orig upd res s', leave_FunctionDef orig upd s = .ok (res, s') →
      (∀ fix, s.get_fix = some fix →
        s'.fixes = s.fixes.erase (.anno fix)
        ∧ (s.fixes.count (.anno fix) = 1 → ModFix.anno fix ∉ s'.fixes))
      ∧ (s.className ≠ none → s.get_fix = none →
          ∀ g, get_mypy_fix s.generated_fixes (.fn orig) = some g →
            s'.generated_fixes = s.generated_fixes.erase g
            ∧ (s.generated_fixes.count g = 1 → g ∉ s'.generated_fixes)))
    ∧ (∀ d res s', leave_Decorator d s = (res, s') →
        ∀ g, get_mypy_fix s.generated_fixes (.dec d) = some g →
          (match g with
           | .commentFix _ _ => s'.generated_fixes = s.generated_fixes.erase g
           | .removeOverloadDecoratorFix _ =>
               s'.generated_fixes = s.generated_fixes.erase g
           | .removeFix _ => s'.generated_fixes = s.generated_fixes))
    ∧ (∀ fix, ModFix.anno fix ∉ s.fixes →
        ∀ cls fn ps, get_fix_aux cls fn ps s.fixes ≠ some fix)
    ∧ (∀ g, g ∉ s.generated_fixes →
        ∀ n, get_mypy_fix s.generated_fixes n ≠ some g)
    ∧ (∀ mf ∈ s.fixes, Sum.inl mf ∈ unapplied_reports s)
    ∧ (∀ g ∈ s.generated_fixes, Sum.inr g ∈ unapplied_reports s) := by
  refine ⟨?_, ?_, ?_, ?_, ?_, ?_⟩
  · intro orig upd res s' hok
    constructor
    · intro fix hrule
      have hcls : s.className = some fix.class_name := by
        unfold FixerState.get_fix at hrule
        cases hlf : s.last_function.getLast? with
        | none => rw [hlf] at hrule; exact absurd hrule (by simp)
        | some f =>
          rw [hlf] at hrule
          exact ((get_fix_aux_spec _ _ _ _ _ hrule).2.1).symm
      simp only [leave_FunctionDef, hcls, hrule] at hok
      cases happ : apply_fix_params fix upd with
      | error e => rw [happ] at hok; exact absurd hok (by simp)
      | ok upd1 =>
        rw [happ] at hok
        injection hok with hok
        cases hok
        refine ⟨by simp [popFn], fun hcount => ?_⟩
        refine List.count_eq_zero.mp ?_
        simp only [popFn]
        rw [List.count_erase_self, hcount]
    · intro hclsne hrule g hgen
      cases hcls : s.className with
      | none => exact absurd hcls hclsne
      | some clsName =>
        have notmem : ∀ (l : List GenFix) (gg : GenFix),
            l.count gg = 1 → gg ∉ l.erase gg :=
          fun l gg hc => List.count_eq_zero.mp
            (by rw [List.count_erase_self, hc])
        cases g with
        | commentFix n c =>
          simp only [leave_FunctionDef, hcls, hrule, hgen,
            apply_comment_fix_fn] at hok
          injection hok with hok
          cases hok
          exact ⟨by simp [popFn], fun hc => notmem _ _ hc⟩
        | removeFix n =>
          by_cases hn : n = Node.fn orig
          · subst hn
            simp only [leave_FunctionDef, hcls, hrule, hgen, if_true] at hok
            injection hok with hok
            cases hok
            exact ⟨by simp [popFn], fun hc => notmem _ _ hc⟩
          · simp only [leave_FunctionDef, hcls, hrule, hgen] at hok
            rw [if_neg hn] at hok
            exact absurd hok (by simp)
        | removeOverloadDecoratorFix d =>
          simp only [leave_FunctionDef, hcls, hrule, hgen] at hok
          exact absurd hok (by simp)
  · intro d res s' hld g hgen
    unfold leave_Decorator at hld
    rw [hgen] at hld
    cases g with
    | commentFix n c =>
      injection hld with hres hs'
      simp [← hs']
    | removeFix n =>
      injection hld with hres hs'
      simp [← hs']
    | removeOverloadDecoratorFix dd =>
      injection hld with hres hs'
      simp [← hs']
  · exact fun fix hmem cls fn ps => get_fix_aux_of_not_mem cls fn ps s.fixes fix hmem
  · exact fun g hmem => get_mypy_fix_of_not_mem s.generated_fixes g hmem
  · intro mf hm
    exact List.mem_append.mpr (Or.inl (List.mem_map_of_mem _ hm))
  · intro g hm
    exact List.mem_append.mpr (Or.inr (List.mem_map_of_mem _ hm))

/-- C8 witness: in `exS3` the applied rule is erased (and, occurring once,
gone for good); in `exS8` the applied generated fix is erased; leftovers
are reported. -/
theorem C8_witness :
    exS3out.fixes = exS3.fixes.erase (.anno exRule)
    ∧ (exS3.fixes.count (.anno exRule) = 1 → ModFix.anno exRule ∉ exS3out.fixes)
    ∧ exS8out.generated_fixes = exS8.generated_fixes.erase exGenFix
    ∧ Sum.inr exGenFix ∈ unapplied_reports exS3 := by
  have h3 := C8_exactly_once exS3
  have h8 := C8_exactly_once exS8
  refine ⟨?_, ?_, ?_, ?_⟩
  · exact ((h3.1 exFn exFn (.node exFn3) exS3out (by decide)).1 exRule (by decide)).1
  · exact ((h3.1 exFn exFn (.node exFn3) exS3out (by decide)).1 exRule (by decide)).2
  · exact ((h8.1 exFn exFn (.node exFnC) exS8out (by decide)).2 (by decide)
      (by decide) exGenFix (by decide)).1
  · exact h3.2.2.2.2.2 exGenFix (by decide)

end PyQt6Stubs

